import Mathlib

/-!
Verification of the `vc` orchestration core against its specification.

The Go sources under `internal/ai`, `internal/executor` and `internal/gates`
are shallowly embedded: Go strings handled byte-wise are `List Nat` of UTF-8
bytes, Go `int` token counts are `Int`, fallible operations return `Except`,
and the stateful components (circuit breaker, semaphore, executor state
machine) are explicit step functions on state records.  Components whose
implementation is not part of the provided sources (the executor state
machine, the gate-failure fallback, the circuit breaker and the semaphore
acquisition discipline) are modelled from the specification text, as marked
on their doc comments.
-/

namespace VC

/-! ## Go strings as UTF-8 byte lists (for byte-indexing code in utils.go) -/

/-- A Go string viewed as its UTF-8 byte sequence; `len`, slicing and
indexing in Go act on these bytes. -/
abbrev GoStr := List Nat

/-- UTF-8 encoding of a single scalar value, used to transport Lean string
literals into the byte-level model. -/
def utf8EncodeChar (c : Char) : List Nat :=
  let n := c.toNat
  if n < 0x80 then [n]
  else if n < 0x800 then
    [0xC0 ||| (n >>> 6), 0x80 ||| (n &&& 0x3F)]
  else if n < 0x10000 then
    [0xE0 ||| (n >>> 12), 0x80 ||| ((n >>> 6) &&& 0x3F), 0x80 ||| (n &&& 0x3F)]
  else
    [0xF0 ||| (n >>> 18), 0x80 ||| ((n >>> 12) &&& 0x3F),
     0x80 ||| ((n >>> 6) &&& 0x3F), 0x80 ||| (n &&& 0x3F)]

/-- Byte sequence of a Lean string literal. -/
def strBytes (s : String) : GoStr :=
  (s.data.map utf8EncodeChar).flatten

/-- Membership of a byte in an inclusive range, as a boolean. -/
def byteIn (lo hi b : Nat) : Bool := decide (lo ≤ b ∧ b ≤ hi)

/-- A UTF-8 continuation byte, `0x80..0xBF`. -/
def isCont (b : Nat) : Bool := byteIn 0x80 0xBF b

/-- Validity of a byte sequence as UTF-8, following Go `unicode/utf8.ValidString`:
ASCII is one byte, `C2..DF` lead two-byte sequences, `E0..EF` three-byte
sequences (rejecting overlong forms after `E0` and surrogates after `ED`),
`F0..F4` four-byte sequences (rejecting overlong forms after `F0` and values
above `U+10FFFF` after `F4`). -/
def utf8Valid : List Nat → Bool
  | [] => true
  | b :: rest =>
    if b < 0x80 then utf8Valid rest
    else if b < 0xC2 then false
    else if b ≤ 0xDF then
      match rest with
      | c1 :: rest2 => isCont c1 && utf8Valid rest2
      | [] => false
    else if b ≤ 0xEF then
      match rest with
      | c1 :: c2 :: rest2 =>
        (if b = 0xE0 then byteIn 0xA0 0xBF c1
         else if b = 0xED then byteIn 0x80 0x9F c1
         else isCont c1) && isCont c2 && utf8Valid rest2
      | _ => false
    else if b ≤ 0xF4 then
      match rest with
      | c1 :: c2 :: c3 :: rest2 =>
        (if b = 0xF0 then byteIn 0x90 0xBF c1
         else if b = 0xF4 then byteIn 0x80 0x8F c1
         else isCont c1) && isCont c2 && isCont c3 && utf8Valid rest2
      | _ => false
    else false

/-! ## Claude CLI provider (internal/ai/provider_claude_cli.go, Supervisor.invokeClaudeCLI) -/

/-- Usage block of a CLI response object (`usage` in the JSON array);
Go `int` fields become `Int`. -/
structure CLIUsage where
  input_tokens : Int
  output_tokens : Int
  cache_read_input_tokens : Int
  cache_creation_input_tokens : Int
deriving DecidableEq

/-- One object of the JSON array printed by the Claude CLI, mirroring
`ClaudeCLIResponse`. -/
structure ClaudeCLIResponse where
  type : String
  session_id : String
  result : String
  is_error : Bool
  usage : CLIUsage
deriving DecidableEq

/-- The result of a single provider invocation (`InvokeResult`). -/
structure InvokeResult where
  text : String
  inputTokens : Int
  outputTokens : Int
deriving DecidableEq

/-- The result-object search loop of `ClaudeCLIProvider.Invoke` and
`Supervisor.invokeClaudeCLI`: scan the array in order and stop at the first
object whose `type` is `"result"` (the Go loop ends with `break`). -/
def findResult : List ClaudeCLIResponse → Option ClaudeCLIResponse
  | [] => none
  | r :: rs => if r.type = "result" then some r else findResult rs

/-- The post-parse pipeline shared by `ClaudeCLIProvider.Invoke`
(provider_claude_cli.go:80-113) and `Supervisor.invokeClaudeCLI`
(claude_cli.go:65-93).  The argument is the outcome of
`json.Unmarshal(output, &responses)`: `none` models a parse failure.
On success the reported input tokens sum the base and both cache counts. -/
def cliInvoke (parsed : Option (List ClaudeCLIResponse)) : Except String InvokeResult :=
  match parsed with
  | none => .error "failed to parse CLI response"
  | some responses =>
    match findResult responses with
    | none => .error "no result object found in CLI response"
    | some result =>
      if result.is_error then
        .error ("claude CLI returned error: " ++ result.result)
      else
        .ok { text := result.result
              inputTokens := result.usage.input_tokens
                + result.usage.cache_read_input_tokens
                + result.usage.cache_creation_input_tokens
              outputTokens := result.usage.output_tokens }

/-! ## Output summarization and safe truncation (internal/ai/utils.go) -/

/-- The issue fields consumed by the summarization prompt. -/
structure SummIssue where
  id : GoStr
  title : GoStr
  description : GoStr

/-- Provider result as seen by `SummarizeAgentOutput` (text plus token counts). -/
structure SummResult where
  text : GoStr
  inputTokens : Int
  outputTokens : Int

/-- Template of `buildSummarizationPrompt` before the verbatim agent output
(utils.go:141-149), with the issue fields spliced in. -/
def summPromptHead (issue : SummIssue) : GoStr :=
  strBytes "You are summarizing the output from a coding agent that just worked on an issue. Extract the key information into a concise summary.\n\nIssue Context:\nIssue ID: "
    ++ issue.id
    ++ strBytes "\nTitle: " ++ issue.title
    ++ strBytes "\nDescription: " ++ issue.description
    ++ strBytes "\n\nAgent Output (may be truncated):\n"

/-- Template of `buildSummarizationPrompt` after the agent output
(utils.go:151-160), with the requested maximum length spliced in. -/
def summPromptTail (maxLength : Int) : GoStr :=
  strBytes "\n\nPlease provide a concise summary (max "
    ++ strBytes (toString maxLength)
    ++ strBytes " characters) that captures:\n1. What was actually done/accomplished\n2. Key decisions or changes made\n3. Important warnings, errors, or issues encountered\n4. Test results (if any)\n5. Next steps mentioned (if any)\n\nFormat the summary as plain text, suitable for adding as a comment. Be specific about concrete actions taken, not just \"the agent worked on X\". Include actual file names, test names, command outputs, etc.\n\nFocus on information that would be useful to someone reviewing this work later. Skip boilerplate or irrelevant output."

/-- `Supervisor.buildSummarizationPrompt` (utils.go:122-165): outputs larger
than 50000 bytes are sampled as first 20000 bytes, a truncation marker, and
the last 30000 bytes, with a note appended at the end. -/
def buildSummarizationPrompt (issue : SummIssue) (fullOutput : GoStr) (maxLength : Int) : GoStr :=
  let maxPromptOutput : Nat := 50000
  let wasTruncated := maxPromptOutput < fullOutput.length
  let outputToAnalyze :=
    if maxPromptOutput < fullOutput.length then
      fullOutput.take 20000
        ++ strBytes "\n\n... [truncated middle section] ...\n\n"
        ++ fullOutput.drop (fullOutput.length - 30000)
    else fullOutput
  let truncationNote :=
    if wasTruncated then
      strBytes "\n\nNote: The full output was very large and has been sampled. Focus on extracting the most important information from what's provided."
    else []
  summPromptHead issue ++ outputToAnalyze ++ truncationNote ++ summPromptTail maxLength

/-- `Supervisor.SummarizeAgentOutput` (utils.go:73-119).  The `call` argument
is the retry-wrapped provider invocation (`retryWithBackoff` around
`provider.Invoke`); the boolean of the returned pair records whether that
invocation path was taken at all.  An empty output and an output no longer
than `maxLength` both short-circuit before any provider call; a failed
provider call is surfaced as an error, never replaced by a local summary. -/
def summarizeAgentOutput (call : GoStr → Except GoStr SummResult)
    (issue : SummIssue) (fullOutput : GoStr) (maxLength : Int) :
    Except GoStr GoStr × Bool :=
  if fullOutput.length = 0 then
    (.ok (strBytes "Agent completed with no output"), false)
  else if (fullOutput.length : Int) ≤ maxLength then
    (.ok fullOutput, false)
  else
    match call (buildSummarizationPrompt issue fullOutput maxLength) with
    | .error e => (.error (strBytes "AI summarization failed: " ++ e), true)
    | .ok res => (.ok res.text, true)

/-- The back-off loop of `safeTruncateString` (utils.go:199-206): up to
`fuel` times (4 in the source), return the byte sequence once it is valid
UTF-8, otherwise drop its final byte; an empty sequence or exhausted fuel
yields the empty string (utils.go:210). -/
def truncBackoff : Nat → GoStr → GoStr
  | 0, _ => []
  | fuel + 1, t =>
    if t.length = 0 then []
    else if utf8Valid t then t
    else truncBackoff fuel t.dropLast

/-- `safeTruncateString` (utils.go:189-211).  `maxLen` is a Go `int`; a
negative `maxLen` makes the slice expression `s[:maxLen]` panic, modelled as
`none`. -/
def safeTruncateString (s : GoStr) (maxLen : Int) : Option GoStr :=
  if (s.length : Int) ≤ maxLen then some s
  else if maxLen < 0 then none
  else some (truncBackoff 4 (s.take maxLen.toNat))

/-! ## Agent command construction (internal/executor/claude_code_provider.go) -/

/-- The `AgentConfig` fields consulted by command construction. -/
structure AgentCfg where
  streamJSON : Bool
deriving DecidableEq

/-- Whitespace recognised by Go `strings.Fields` via `unicode.IsSpace`,
restricted to the Latin-1 range occurring in flag strings. -/
def isGoSpace (c : Char) : Bool :=
  c = ' ' || c = '\t' || c = '\n' || c.toNat = 0x0B || c.toNat = 0x0C
    || c.toNat = 0x0D || c.toNat = 0x85 || c.toNat = 0xA0

/-- Accumulator loop for `goFields`. -/
def goFieldsAux : List Char → List Char → List String
  | [], acc => if acc.isEmpty then [] else [String.mk acc.reverse]
  | c :: cs, acc =>
    if isGoSpace c then
      if acc.isEmpty then goFieldsAux cs []
      else String.mk acc.reverse :: goFieldsAux cs []
    else goFieldsAux cs (c :: acc)

/-- Go `strings.Fields`: split around runs of whitespace. -/
def goFields (s : String) : List String := goFieldsAux s.data []

/-- `ClaudeCodeProvider.BuildCommand` (claude_code_provider.go:37-76),
restricted to the argument vector passed after the binary path.
`claudeArgsEnv` is the value of `VC_CLAUDE_ARGS` (`""` when unset, which is
indistinguishable from set-to-empty through `os.Getenv`). -/
def claudeCodeBuildArgs (cfg : AgentCfg) (claudeArgsEnv : String) (prompt : String) :
    List String :=
  let args := ["--print"]
  let args := args ++ (if cfg.streamJSON then ["--output-format", "stream-json"] else [])
  let args := args ++
    (if claudeArgsEnv = "" then ["--dangerously-skip-permissions"]
     else goFields claudeArgsEnv)
  args ++ [prompt]

/-- `AmpProvider.BuildCommand` (claude_code_provider.go:108-128), restricted
to the argument vector passed after the binary name `amp`.  Note the
`--stream-json` flag is appended after the prompt. -/
def ampBuildArgs (cfg : AgentCfg) (prompt : String) : List String :=
  ["--dangerously-allow-all", "--execute", prompt]
    ++ (if cfg.streamJSON then ["--stream-json"] else [])

/-! ## Executor state machine (specification §4.1) -/

/-- Per-issue states: the `ExecutionState` values of §3 together with the
store-level `open` and `closed` statuses that §4.1 transitions reach. -/
inductive ExecState
  | opened
  | claimed
  | assessing
  | executing
  | completed
  | blocked
  | failed
  | closed
deriving DecidableEq

/-- The transition triggers named in the §4.1 table. -/
inductive Trigger
  | claimOk
  | superviseOn
  | superviseOff
  | assessDone
  | assessFail
  | agentOk
  | agentErr
  | gateBlock
  | gateClose
  | depsClosed
  | internalErr
deriving DecidableEq

/-- Modelled from the spec: the executor and its state-machine enforcement
(`UpdateExecutionState` plus the executor loop) are not among the provided
sources; the transition table is taken verbatim from §4.1, including the
any-state transition to `failed` on an unrecoverable internal error. -/
def transition : ExecState → Trigger → Option ExecState
  | _, .internalErr => some .failed
  | .opened, .claimOk => some .claimed
  | .claimed, .superviseOn => some .assessing
  | .claimed, .superviseOff => some .executing
  | .assessing, .assessDone => some .executing
  | .assessing, .assessFail => some .failed
  | .executing, .agentOk => some .completed
  | .executing, .agentErr => some .failed
  | .completed, .gateBlock => some .blocked
  | .completed, .gateClose => some .closed
  | .blocked, .depsClosed => some .opened
  | _, _ => none

/-- Modelled from the spec: applying a trigger through the store; a pair
absent from the table leaves the state unchanged and raises a warning
(`true`) instead of failing hard (§4.1: rejected, logged, non-fatal). -/
def applyTrigger (s : ExecState) (t : Trigger) : ExecState × Bool :=
  match transition s t with
  | some s2 => (s2, false)
  | none => (s, true)

/-- Modelled from the spec: the executor loop drives a sequence of triggers,
counting warnings; it is total, so an illegal transition never aborts the
loop. -/
def execLoop : ExecState → List Trigger → ExecState × Nat
  | s, [] => (s, 0)
  | s, t :: ts =>
    let step := applyTrigger s t
    let rest := execLoop step.1 ts
    (rest.1, (if step.2 then 1 else 0) + rest.2)

/-! ## Deterministic fallback recovery (specification §4.4) -/

/-- One gate outcome (`GateResult`): gate name, pass flag, captured output. -/
structure GateResult where
  gate : String
  passed : Bool
  output : String
deriving DecidableEq

/-- Issue status values touched by recovery. -/
inductive IssueStatus
  | openIssue
  | inProgress
  | blocked
  | closed
deriving DecidableEq

/-- Follow-up issues, dependency edges (original, follow-up), and the status
written back to the original issue by fallback recovery. -/
structure FallbackOutcome where
  followUps : List String
  newDeps : List (String × String)
  originalStatus : IssueStatus
deriving DecidableEq

/-- Modelled from the spec: the follow-up creation loop of the deterministic
fallback (`handleGateResultsFallback`, internal/gates/gates.go, not among the
provided sources): one blocking follow-up issue per failed gate, named after
the original issue and the gate as observed in the repository's test log
(`vc-5-gate-test`, `vc-5-gate-lint`). -/
def fallbackFollowUps (issueID : String) : List GateResult → List String
  | [] => []
  | r :: rs =>
    if r.passed then fallbackFollowUps issueID rs
    else (issueID ++ "-gate-" ++ r.gate) :: fallbackFollowUps issueID rs

/-- Modelled from the spec (§4.4 deterministic fallback): create one blocking
follow-up issue per failed gate, add a dependency edge from the original
issue to each follow-up, and mark the original issue blocked. -/
def fallbackRecover (issueID : String) (results : List GateResult) : FallbackOutcome :=
  let fs := fallbackFollowUps issueID results
  { followUps := fs
    newDeps := fs.map (fun f => (issueID, f))
    originalStatus := .blocked }

/-! ## Circuit breaker (specification §4.2, §8) -/

/-- Breaker states: closed, open, half-open. -/
inductive CBStatus
  | closed
  | opened
  | halfOpen
deriving DecidableEq

/-- Thresholds and timeout configured at `NewCircuitBreaker`
(supervisor.go:119-123): failure threshold N, success threshold M, open
timeout. -/
structure CBConfig where
  failureThreshold : Nat
  successThreshold : Nat
  openTimeout : Nat
deriving DecidableEq

/-- Breaker state record (§3): state, consecutive-failure counter,
consecutive-success counter, open-since timestamp. -/
structure CircuitBreaker where
  status : CBStatus
  failures : Nat
  successes : Nat
  openedAt : Nat
deriving DecidableEq

/-- A freshly constructed breaker: closed with zeroed counters. -/
def cbFresh : CircuitBreaker :=
  { status := .closed, failures := 0, successes := 0, openedAt := 0 }

/-- Modelled from the spec: outcome bookkeeping of a half-open trial —
`successThreshold` consecutive successes close the breaker, any half-open
failure reopens it (§4.2). -/
def cbRecordHalfOpen (cfg : CBConfig) (cb : CircuitBreaker) (now : Nat) (succ : Bool) :
    CircuitBreaker :=
  if succ then
    if cfg.successThreshold ≤ cb.successes + 1 then cbFresh
    else { cb with status := .halfOpen, successes := cb.successes + 1 }
  else
    { status := .opened, failures := cb.failures, successes := 0, openedAt := now }

/-- Modelled from the spec: one guarded call through the circuit breaker
(`retry.go`, not among the provided sources; behaviour per §4.2 and §8).
The boolean result records whether the Provider was actually called: a call
in the open state before the timeout fails fast without reaching the
Provider; a call after the timeout is the single half-open trial. -/
def cbCall (cfg : CBConfig) (cb : CircuitBreaker) (now : Nat) (succ : Bool) :
    CircuitBreaker × Bool :=
  if cb.status = .closed then
    if succ then ({ cb with failures := 0 }, true)
    else if cfg.failureThreshold ≤ cb.failures + 1 then
      ({ status := .opened, failures := cb.failures + 1, successes := 0, openedAt := now },
        true)
    else ({ cb with failures := cb.failures + 1 }, true)
  else if cb.status = .opened then
    if now < cb.openedAt + cfg.openTimeout then (cb, false)
    else (cbRecordHalfOpen cfg { cb with status := .halfOpen, successes := 0 } now succ, true)
  else
    (cbRecordHalfOpen cfg cb now succ, true)

/-- Iterated failing calls at a fixed instant, to express "N consecutive
Provider failures". -/
def cbFailTimes (cfg : CBConfig) (cb : CircuitBreaker) : Nat → CircuitBreaker
  | 0 => cb
  | n + 1 => cbFailTimes cfg (cbCall cfg cb 0 false).1 n

/-- Iterated succeeding calls at a fixed instant, to express "M consecutive
half-open successes". -/
def cbSuccTimes (cfg : CBConfig) (cb : CircuitBreaker) : Nat → CircuitBreaker
  | 0 => cb
  | n + 1 => cbSuccTimes cfg (cbCall cfg cb 0 true).1 n

/-! ## Concurrency limiter (specification §4.2, §5, §8) -/

/-- An acquire or release of one slot by a caller. -/
inductive SemOp
  | acquire (caller : Nat)
  | release (caller : Nat)
deriving DecidableEq

/-- Modelled from the spec: the weighted semaphore bounding in-flight
Provider calls (`semaphore.NewWeighted` at supervisor.go:131; the
acquire/release discipline of `retry.go` is not among the provided sources).
State is the list of callers holding a slot; an acquire is granted only
below the bound, otherwise the caller stays blocked (`false`) and the state
is unchanged. -/
def semStep (k : Nat) (holders : List Nat) : SemOp → List Nat × Bool
  | .acquire c => if holders.length < k then (c :: holders, true) else (holders, false)
  | .release c => (holders.erase c, true)

/-- A trace of semaphore operations from a given state. -/
def semRun (k : Nat) (holders : List Nat) : List SemOp → List Nat
  | [] => holders
  | op :: ops => semRun k (semStep k holders op).1 ops

/-! ## Theorems -/

/-- Every response delivered by the result-search loop has type `"result"`. -/
theorem findResult_type : ∀ (rs : List ClaudeCLIResponse) (r : ClaudeCLIResponse),
    findResult rs = some r → r.type = "result" := by
  intro rs
  induction rs with
  | nil => intro r h; exact absurd h (by simp [findResult])
  | cons a as ih =>
    intro r h
    unfold findResult at h
    by_cases ha : a.type = "result"
    · rw [if_pos ha] at h
      cases h
      exact ha
    · rw [if_neg ha] at h
      exact ih r h

/-- Reduction of the invocation pipeline on a successfully parsed array. -/
theorem cliInvoke_some_eq (rs : List ClaudeCLIResponse) :
    cliInvoke (some rs) =
      match findResult rs with
      | none => .error "no result object found in CLI response"
      | some result =>
        if result.is_error then
          .error ("claude CLI returned error: " ++ result.result)
        else
          .ok { text := result.result
                inputTokens := result.usage.input_tokens
                  + result.usage.cache_read_input_tokens
                  + result.usage.cache_creation_input_tokens
                outputTokens := result.usage.output_tokens } := rfl

/-- Claim C1: whenever the CLI backend's Invoke succeeds on a parsed response
array, the returned InvokeResult reports as input tokens exactly the sum of
the selected result object's base, cache-read and cache-creation input-token
counts, and as output tokens exactly its output-token count. -/
theorem cli_invoke_token_accounting (rs : List ClaudeCLIResponse) (res : InvokeResult)
    (h : cliInvoke (some rs) = .ok res) :
    ∃ r, findResult rs = some r ∧ r.type = "result"
      ∧ res.inputTokens = r.usage.input_tokens + r.usage.cache_read_input_tokens
          + r.usage.cache_creation_input_tokens
      ∧ res.outputTokens = r.usage.output_tokens := by
  rw [cliInvoke_some_eq] at h
  cases hf : findResult rs with
  | none =>
    rw [hf] at h
    exact absurd h (by simp)
  | some r =>
    rw [hf] at h
    dsimp only at h
    by_cases he : r.is_error = true
    · rw [if_pos he] at h
      exact absurd h (by simp)
    · rw [if_neg he] at h
      refine ⟨r, rfl, findResult_type rs r hf, ?_, ?_⟩
      · cases h; rfl
      · cases h; rfl

/-- A system-typed CLI response object, for concrete instances. -/
def respSystem : ClaudeCLIResponse :=
  { type := "system", session_id := "s", result := "", is_error := false
    usage := ⟨0, 0, 0, 0⟩ }

/-- A successful result-typed CLI response object with distinct token counts. -/
def respOk : ClaudeCLIResponse :=
  { type := "result", session_id := "s", result := "done", is_error := false
    usage := ⟨7, 5, 11, 13⟩ }

theorem cli_invoke_token_accounting_witness :
    ∃ r, findResult [respSystem, respOk] = some r ∧ r.type = "result"
      ∧ (31 : Int) = r.usage.input_tokens + r.usage.cache_read_input_tokens
          + r.usage.cache_creation_input_tokens
      ∧ (5 : Int) = r.usage.output_tokens :=
  cli_invoke_token_accounting [respSystem, respOk]
    { text := "done", inputTokens := 31, outputTokens := 5 } rfl

/-- An error-flagged result-typed CLI response object. -/
def respErr : ClaudeCLIResponse :=
  { type := "result", session_id := "s", result := "boom", is_error := true
    usage := ⟨0, 0, 0, 0⟩ }

/-- Claim C2 (counterexample): on an array holding two result-typed objects
whose terminal one is error-flagged, Invoke returns a success built from the
first object, so it does not select the terminal result object and returns
no error despite the terminal object's error flag. -/
theorem cli_invoke_terminal_counterexample :
    (([respOk, respErr].filter (fun r => r.type == "result")).getLast? = some respErr)
    ∧ respErr.is_error = true
    ∧ cliInvoke (some [respOk, respErr])
        = .ok { text := "done", inputTokens := 31, outputTokens := 5 } := by
  refine ⟨by decide, rfl, rfl⟩

/-- Claim C2 (amended): Invoke selects the first object of type "result"
in array order; if that object's error flag is set, Invoke returns an error
(never a success), and if no result-typed object exists, Invoke returns an
error. -/
theorem cli_invoke_first_result (rs : List ClaudeCLIResponse) :
    findResult rs = rs.find? (fun r => r.type == "result")
    ∧ (∀ r, findResult rs = some r → r.is_error = true →
        cliInvoke (some rs) = .error ("claude CLI returned error: " ++ r.result))
    ∧ (findResult rs = none →
        cliInvoke (some rs) = .error "no result object found in CLI response") := by
  refine ⟨?_, ?_, ?_⟩
  · induction rs with
    | nil => rfl
    | cons a as ih =>
      unfold findResult
      by_cases ha : a.type = "result"
      · simp [ha, List.find?]
      · simp only [List.find?]
        have : (a.type == "result") = false := by
          simp [ha]
        rw [this, if_neg ha]
        exact ih
  · intro r hf he
    rw [cliInvoke_some_eq, hf]
    dsimp only
    rw [if_pos he]
  · intro hf
    rw [cliInvoke_some_eq, hf]

theorem cli_invoke_first_result_witness :
    cliInvoke (some [respErr]) = .error ("claude CLI returned error: " ++ "boom")
    ∧ cliInvoke (some [respSystem]) = .error "no result object found in CLI response" :=
  ⟨(cli_invoke_first_result [respErr]).2.1 respErr (by decide) rfl,
   (cli_invoke_first_result [respSystem]).2.2 (by decide)⟩

/-- Claim C6: a response that fails to parse is a hard error from the CLI
backend, and a failed provider invocation inside SummarizeAgentOutput is
surfaced as a hard error, never replaced by a locally computed summary. -/
theorem parse_failure_hard_error :
    cliInvoke none = .error "failed to parse CLI response"
    ∧ ∀ (call : GoStr → Except GoStr SummResult) (issue : SummIssue)
        (out : GoStr) (maxLen : Int) (e : GoStr),
        out.length ≠ 0 → ¬ ((out.length : Int) ≤ maxLen) →
        call (buildSummarizationPrompt issue out maxLen) = .error e →
        summarizeAgentOutput call issue out maxLen
          = (.error (strBytes "AI summarization failed: " ++ e), true) := by
  refine ⟨rfl, ?_⟩
  intro call issue out maxLen e h0 hlen hcall
  unfold summarizeAgentOutput
  rw [if_neg h0, if_neg hlen, hcall]

theorem parse_failure_hard_error_witness :
    summarizeAgentOutput (fun _ => .error (strBytes "oops")) ⟨[], [], []⟩ [104, 105] 1
      = (.error (strBytes "AI summarization failed: " ++ strBytes "oops"), true) :=
  parse_failure_hard_error.2 (fun _ => .error (strBytes "oops")) ⟨[], [], []⟩
    [104, 105] 1 (strBytes "oops") (by decide) (by decide) rfl

/-- Claim C9: SummarizeAgentOutput answers "Agent completed with no output"
without error on empty output, and returns the output unchanged without
error when it is no longer than the requested maximum; in both cases the
provider is never invoked. -/
theorem summarize_short_circuit (call : GoStr → Except GoStr SummResult)
    (issue : SummIssue) (fullOutput : GoStr) (maxLength : Int) :
    (fullOutput.length = 0 →
      summarizeAgentOutput call issue fullOutput maxLength
        = (.ok (strBytes "Agent completed with no output"), false))
    ∧ (fullOutput.length ≠ 0 → (fullOutput.length : Int) ≤ maxLength →
      summarizeAgentOutput call issue fullOutput maxLength = (.ok fullOutput, false)) := by
  constructor
  · intro h
    unfold summarizeAgentOutput
    rw [if_pos h]
  · intro h0 hle
    unfold summarizeAgentOutput
    rw [if_neg h0, if_pos hle]

theorem summarize_short_circuit_witness :
    summarizeAgentOutput (fun _ => .error []) ⟨[], [], []⟩ [] 5
      = (.ok (strBytes "Agent completed with no output"), false)
    ∧ summarizeAgentOutput (fun _ => .error []) ⟨[], [], []⟩ [104, 105] 5
      = (.ok [104, 105], false) :=
  ⟨(summarize_short_circuit (fun _ => .error []) ⟨[], [], []⟩ [] 5).1 rfl,
   (summarize_short_circuit (fun _ => .error []) ⟨[], [], []⟩ [104, 105] 5).2
     (by decide) (by decide)⟩

/-- The back-off loop returns the empty string or a valid UTF-8 portion of
its input dropped by fewer than `fuel` final bytes. -/
theorem truncBackoff_spec : ∀ (fuel : Nat) (t : GoStr),
    truncBackoff fuel t = [] ∨
      (utf8Valid (truncBackoff fuel t) = true
        ∧ (∃ u, truncBackoff fuel t ++ u = t)
        ∧ t.length - fuel ≤ (truncBackoff fuel t).length
        ∧ (truncBackoff fuel t).length ≤ t.length) := by
  intro fuel
  induction fuel with
  | zero =>
    intro t
    left
    rfl
  | succ n ih =>
    intro t
    unfold truncBackoff
    by_cases h0 : t.length = 0
    · left
      rw [if_pos h0]
    · rw [if_neg h0]
      by_cases hv : utf8Valid t = true
      · right
        rw [if_pos hv]
        exact ⟨hv, ⟨[], by simp⟩, by omega, le_refl _⟩
      · rw [if_neg hv]
        have hne : t ≠ [] := by
          intro hcon
          exact h0 (by rw [hcon]; rfl)
        rcases ih t.dropLast with h | ⟨h1, ⟨u, h2⟩, h3, h4⟩
        · left
          exact h
        · right
          have hdl : t.dropLast.length = t.length - 1 := List.length_dropLast t
          refine ⟨h1, ⟨u ++ [t.getLast hne], ?_⟩, ?_, ?_⟩
          · rw [← List.append_assoc, h2, List.dropLast_append_getLast hne]
          · omega
          · omega

/-- Claim C10: for non-negative maxLen, safeTruncateString returns the input
unchanged when it fits in maxLen bytes, and otherwise returns either the
empty string or a valid-UTF-8 byte sequence that is an initial portion of the
input of at most maxLen and at least maxLen - 4 bytes, so a multi-byte UTF-8
sequence is never split. -/
theorem safe_truncate_utf8 (s : GoStr) (maxLen : Int) (hnn : 0 ≤ maxLen) :
    ∃ r, safeTruncateString s maxLen = some r
      ∧ ((s.length : Int) ≤ maxLen → r = s)
      ∧ (maxLen < (s.length : Int) →
          r = [] ∨
            (utf8Valid r = true ∧ (∃ u, r ++ u = s)
              ∧ (r.length : Int) ≤ maxLen ∧ maxLen - 4 ≤ (r.length : Int))) := by
  by_cases hle : (s.length : Int) ≤ maxLen
  · refine ⟨s, ?_, fun _ => rfl, fun hlt => absurd hlt (not_lt.mpr hle)⟩
    unfold safeTruncateString
    rw [if_pos hle]
  · have hlt : maxLen < (s.length : Int) := not_le.mp hle
    refine ⟨truncBackoff 4 (s.take maxLen.toNat), ?_, fun h => absurd h hle, ?_⟩
    · unfold safeTruncateString
      rw [if_neg hle, if_neg (not_lt.mpr hnn)]
    · intro _
      have htl : (s.take maxLen.toNat).length = maxLen.toNat := by
        rw [List.length_take]
        omega
      rcases truncBackoff_spec 4 (s.take maxLen.toNat) with h | ⟨h1, ⟨u, h2⟩, h3, h4⟩
      · left
        exact h
      · right
        refine ⟨h1, ⟨u ++ s.drop maxLen.toNat, ?_⟩, ?_, ?_⟩
        · rw [← List.append_assoc, h2, List.take_append_drop]
        · rw [htl] at h4
          omega
        · rw [htl] at h3
          omega

theorem safe_truncate_utf8_witness :
    (0 : Int) ≤ 3
    ∧ ∃ r, safeTruncateString [0xE2, 0x82, 0xAC, 0x21] 3 = some r
      ∧ (((4 : Nat) : Int) ≤ 3 → r = [0xE2, 0x82, 0xAC, 0x21])
      ∧ ((3 : Int) < ((4 : Nat) : Int) →
          r = [] ∨
            (utf8Valid r = true ∧ (∃ u, r ++ u = [0xE2, 0x82, 0xAC, 0x21])
              ∧ (r.length : Int) ≤ 3 ∧ (3 : Int) - 4 ≤ (r.length : Int))) :=
  ⟨by decide, safe_truncate_utf8 [0xE2, 0x82, 0xAC, 0x21] 3 (by decide)⟩

/-- The follow-up loop of fallback recovery produces exactly the failed
gates, in order, under the issue-gate naming scheme. -/
theorem fallbackFollowUps_eq (issueID : String) : ∀ results : List GateResult,
    fallbackFollowUps issueID results
      = (results.filter (fun r => !r.passed)).map
          (fun r => issueID ++ "-gate-" ++ r.gate) := by
  intro results
  induction results with
  | nil => rfl
  | cons r rs ih =>
    unfold fallbackFollowUps
    by_cases hp : r.passed = true
    · rw [if_pos hp]
      simp [List.filter, hp, ih]
    · rw [if_neg hp]
      have hp2 : r.passed = false := by
        cases h : r.passed
        · rfl
        · exact absurd h hp
      simp [List.filter, hp2, ih]

/-- Claim C3: when gate results contain at least one failure, the
deterministic fallback creates exactly one blocking follow-up issue per
failed gate, adds a dependency edge from the original issue to each
follow-up, and sets the original issue's status to blocked. -/
theorem fallback_recovery_per_failed_gate (issueID : String)
    (results : List GateResult) (hfail : ∃ r ∈ results, r.passed = false) :
    (fallbackRecover issueID results).followUps
        = (results.filter (fun r => !r.passed)).map
            (fun r => issueID ++ "-gate-" ++ r.gate)
    ∧ (fallbackRecover issueID results).followUps.length
        = (results.filter (fun r => !r.passed)).length
    ∧ (fallbackRecover issueID results).newDeps
        = (fallbackRecover issueID results).followUps.map (fun f => (issueID, f))
    ∧ (fallbackRecover issueID results).originalStatus = .blocked
    ∧ (fallbackRecover issueID results).followUps ≠ [] := by
  have he := fallbackFollowUps_eq issueID results
  refine ⟨he, ?_, rfl, rfl, ?_⟩
  · show (fallbackFollowUps issueID results).length = _
    rw [he]
    exact List.length_map _ _
  · show fallbackFollowUps issueID results ≠ []
    rw [he]
    rcases hfail with ⟨r, hmem, hfalse⟩
    intro hcon
    have : r ∈ results.filter (fun r => !r.passed) :=
      List.mem_filter.mpr ⟨hmem, by rw [hfalse]; rfl⟩
    rw [List.map_eq_nil_iff] at hcon
    rw [hcon] at this
    exact absurd this (List.not_mem_nil r)

/-- The three gate results of the end-to-end scenario in §8: build passes,
test and lint fail. -/
def demoGateResults : List GateResult :=
  [{ gate := "build", passed := true, output := "ok" },
   { gate := "test", passed := false, output := "FAIL" },
   { gate := "lint", passed := false, output := "warning" }]

theorem fallback_recovery_per_failed_gate_witness :
    (∃ r ∈ demoGateResults, r.passed = false)
    ∧ (fallbackRecover "X" demoGateResults).followUps = ["X-gate-test", "X-gate-lint"]
    ∧ (fallbackRecover "X" demoGateResults).followUps.length = 2
    ∧ (fallbackRecover "X" demoGateResults).newDeps
        = [("X", "X-gate-test"), ("X", "X-gate-lint")]
    ∧ (fallbackRecover "X" demoGateResults).originalStatus = .blocked := by
  have h := fallback_recovery_per_failed_gate "X" demoGateResults
    ⟨{ gate := "test", passed := false, output := "FAIL" }, by decide, rfl⟩
  exact ⟨⟨{ gate := "test", passed := false, output := "FAIL" }, by decide, rfl⟩,
    by decide, by decide, by decide, h.2.2.2.1⟩

/-- Claim C4: a (state, trigger) pair absent from the §4.1 table leaves the
state unchanged and raises a warning, the executor loop continues past it
rather than crashing (it is total and processes the remaining triggers),
and no transition outside the table is ever applied. -/
theorem illegal_transition_rejected (s : ExecState) (t : Trigger) (ts : List Trigger)
    (h : transition s t = none) :
    applyTrigger s t = (s, true)
    ∧ (execLoop s (t :: ts)).1 = (execLoop s ts).1
    ∧ (execLoop s (t :: ts)).2 = (execLoop s ts).2 + 1
    ∧ (∀ (s2 : ExecState) (t2 : Trigger) (s3 : ExecState),
        applyTrigger s2 t2 = (s3, false) → transition s2 t2 = some s3) := by
  have ha : applyTrigger s t = (s, true) := by
    unfold applyTrigger
    rw [h]
  refine ⟨ha, ?_, ?_, ?_⟩
  · show (execLoop (applyTrigger s t).1 ts).1 = _
    rw [ha]
  · show ((if (applyTrigger s t).2 then 1 else 0) + (execLoop (applyTrigger s t).1 ts).2) = _
    rw [ha]
    simp [Nat.add_comm]
  · intro s2 t2 s3 h2
    unfold applyTrigger at h2
    cases hm : transition s2 t2 with
    | none =>
      rw [hm] at h2
      exact absurd (congrArg Prod.snd h2) (by simp)
    | some s4 =>
      rw [hm] at h2
      dsimp only at h2
      exact congrArg some (congrArg Prod.fst h2)

theorem illegal_transition_rejected_witness :
    transition .claimed .agentOk = none
    ∧ applyTrigger .claimed .agentOk = (.claimed, true)
    ∧ (execLoop .claimed [.agentOk, .superviseOff]).1
        = (execLoop .claimed [.superviseOff]).1
    ∧ (execLoop .claimed [.agentOk, .superviseOff]).2
        = (execLoop .claimed [.superviseOff]).2 + 1 := by
  have h := illegal_transition_rejected .claimed .agentOk [.superviseOff] rfl
  exact ⟨rfl, h.1, h.2.1, h.2.2.1⟩

/-- From a closed breaker, a streak of consecutive failures completing the
configured threshold leaves the breaker open. -/
theorem cbFailStreak (cfg : CBConfig) :
    ∀ (n : Nat) (cb : CircuitBreaker), cb.status = .closed →
      cb.failures + n = cfg.failureThreshold → 1 ≤ n →
      (cbFailTimes cfg cb n).status = .opened := by
  intro n
  induction n with
  | zero =>
    intro cb _ _ h
    omega
  | succ m ih =>
    intro cb hs hf _
    show (cbFailTimes cfg (cbCall cfg cb 0 false).1 m).status = .opened
    by_cases hm : m = 0
    · subst hm
      have hth : cfg.failureThreshold ≤ cb.failures + 1 := by omega
      show (cbCall cfg cb 0 false).1.status = .opened
      unfold cbCall
      rw [if_pos hs]
      simp [hth]
    · have hth : ¬ cfg.failureThreshold ≤ cb.failures + 1 := by omega
      have hstep : (cbCall cfg cb 0 false).1 = { cb with failures := cb.failures + 1 } := by
        unfold cbCall
        rw [if_pos hs]
        simp [hth]
      rw [hstep]
      exact ih _ hs (by simp; omega) (by omega)

/-- From a half-open breaker, a streak of consecutive successes completing
the configured threshold closes the breaker. -/
theorem cbSuccStreak (cfg : CBConfig) :
    ∀ (n : Nat) (cb : CircuitBreaker), cb.status = .halfOpen →
      cb.successes + n = cfg.successThreshold → 1 ≤ n →
      (cbSuccTimes cfg cb n).status = .closed := by
  intro n
  induction n with
  | zero =>
    intro cb _ _ h
    omega
  | succ m ih =>
    intro cb hs hf _
    show (cbSuccTimes cfg (cbCall cfg cb 0 true).1 m).status = .closed
    by_cases hm : m = 0
    · subst hm
      have hth : cfg.successThreshold ≤ cb.successes + 1 := by omega
      show (cbCall cfg cb 0 true).1.status = .closed
      unfold cbCall
      rw [if_neg (by rw [hs]; intro hcon; cases hcon),
        if_neg (by rw [hs]; intro hcon; cases hcon)]
      unfold cbRecordHalfOpen
      simp [hth, cbFresh]
    · have hth : ¬ cfg.successThreshold ≤ cb.successes + 1 := by omega
      have hstep : (cbCall cfg cb 0 true).1
          = { cb with status := .halfOpen, successes := cb.successes + 1 } := by
        unfold cbCall
        rw [if_neg (by rw [hs]; intro hcon; cases hcon),
          if_neg (by rw [hs]; intro hcon; cases hcon)]
        unfold cbRecordHalfOpen
        simp [hth]
      rw [hstep]
      exact ih _ rfl (by simp; omega) (by omega)

/-- Claim C5: after the configured number of consecutive Provider failures
the breaker is open; while open and before the timeout every call fails fast
with the breaker unchanged and the Provider never reached; once the timeout
has elapsed the next call is allowed through as the half-open trial; the
configured number of consecutive half-open successes closes the breaker; and
any half-open failure reopens it. -/
theorem circuit_breaker_lifecycle (cfg : CBConfig) (cb : CircuitBreaker) (now : Nat) :
    (cb.status = .closed → cb.failures = 0 → 1 ≤ cfg.failureThreshold →
      (cbFailTimes cfg cb cfg.failureThreshold).status = .opened)
    ∧ (cb.status = .opened → now < cb.openedAt + cfg.openTimeout →
      ∀ succ, cbCall cfg cb now succ = (cb, false))
    ∧ (cb.status = .opened → cb.openedAt + cfg.openTimeout ≤ now →
      ∀ succ, (cbCall cfg cb now succ).2 = true)
    ∧ (cb.status = .halfOpen → cb.successes = 0 → 1 ≤ cfg.successThreshold →
      (cbSuccTimes cfg cb cfg.successThreshold).status = .closed)
    ∧ (cb.status = .halfOpen → (cbCall cfg cb now false).1.status = .opened) := by
  refine ⟨?_, ?_, ?_, ?_, ?_⟩
  · intro hs hf h1
    exact cbFailStreak cfg cfg.failureThreshold cb hs (by omega) h1
  · intro hs ht succ
    unfold cbCall
    rw [if_neg (by rw [hs]; intro hcon; cases hcon), if_pos hs, if_pos ht]
  · intro hs ht succ
    unfold cbCall
    rw [if_neg (by rw [hs]; intro hcon; cases hcon), if_pos hs,
      if_neg (by omega)]
  · intro hs h0 h1
    exact cbSuccStreak cfg cfg.successThreshold cb hs (by omega) h1
  · intro hs
    unfold cbCall
    rw [if_neg (by rw [hs]; intro hcon; cases hcon),
      if_neg (by rw [hs]; intro hcon; cases hcon)]
    unfold cbRecordHalfOpen
    simp

theorem circuit_breaker_lifecycle_witness :
    (cbFailTimes ⟨2, 2, 5⟩ cbFresh 2).status = .opened
    ∧ cbCall ⟨2, 2, 5⟩ { status := .opened, failures := 2, successes := 0, openedAt := 10 }
        12 true
        = ({ status := .opened, failures := 2, successes := 0, openedAt := 10 }, false)
    ∧ (cbCall ⟨2, 2, 5⟩ { status := .opened, failures := 2, successes := 0, openedAt := 10 }
        15 true).2 = true
    ∧ (cbSuccTimes ⟨2, 2, 5⟩
        { status := .halfOpen, failures := 2, successes := 0, openedAt := 10 } 2).status
        = .closed
    ∧ (cbCall ⟨2, 2, 5⟩ { status := .halfOpen, failures := 2, successes := 0, openedAt := 10 }
        15 false).1.status = .opened :=
  ⟨(circuit_breaker_lifecycle ⟨2, 2, 5⟩ cbFresh 0).1 rfl rfl (by decide),
   (circuit_breaker_lifecycle ⟨2, 2, 5⟩ _ 12).2.1 rfl (by decide) true,
   (circuit_breaker_lifecycle ⟨2, 2, 5⟩ _ 15).2.2.1 rfl (by decide) true,
   (circuit_breaker_lifecycle ⟨2, 2, 5⟩ _ 0).2.2.2.1 rfl rfl (by decide),
   (circuit_breaker_lifecycle ⟨2, 2, 5⟩ _ 15).2.2.2.2 rfl⟩

/-- Any trace of semaphore operations keeps the holder count within the
bound, provided it starts within the bound. -/
theorem semRun_bound (k : Nat) : ∀ (ops : List SemOp) (holders : List Nat),
    holders.length ≤ k → (semRun k holders ops).length ≤ k := by
  intro ops
  induction ops with
  | nil =>
    intro holders h
    exact h
  | cons op ops ih =>
    intro holders h
    show (semRun k (semStep k holders op).1 ops).length ≤ k
    refine ih _ ?_
    cases op with
    | acquire c =>
      by_cases hlt : holders.length < k
      · simp only [semStep]
        rw [if_pos hlt]
        exact hlt
      · simp only [semStep]
        rw [if_neg hlt]
        exact h
    | release c =>
      simp only [semStep]
      exact le_trans (List.Sublist.length_le (List.erase_sublist c holders)) h

/-- Claim C8: with the concurrency limit set to k, every trace of
acquisitions and releases keeps at most k Provider calls in flight; an
acquire attempted while k calls hold slots is not granted and changes
nothing (the caller stays blocked), and it is granted as soon as one of the
k holders releases its slot. -/
theorem semaphore_concurrency_bound (k : Nat) (ops : List SemOp)
    (holders : List Nat) (c c2 : Nat) :
    ((semRun k [] ops).length ≤ k)
    ∧ (holders.length = k → semStep k holders (.acquire c) = (holders, false))
    ∧ (holders.length = k → c2 ∈ holders →
        (semStep k ((semStep k holders (.release c2)).1) (.acquire c)).2 = true) := by
  refine ⟨semRun_bound k ops [] (by simp), ?_, ?_⟩
  · intro h
    simp only [semStep]
    rw [if_neg (by omega)]
  · intro h hm
    have h1 : 1 ≤ holders.length := List.length_pos.mpr (List.ne_nil_of_mem hm)
    have he : (holders.erase c2).length = holders.length - 1 :=
      List.length_erase_of_mem hm
    simp only [semStep]
    rw [if_pos (by omega)]

theorem semaphore_concurrency_bound_witness :
    ((semRun 1 [] [.acquire 5, .acquire 6, .release 5]).length ≤ 1)
    ∧ ((7 : Nat) :: []).length = 1
    ∧ semStep 1 [7] (.acquire 8) = ([7], false)
    ∧ (semStep 1 ((semStep 1 [7] (.release 7)).1) (.acquire 8)).2 = true := by
  have h := semaphore_concurrency_bound 1 [.acquire 5, .acquire 6, .release 5] [7] 8 7
  exact ⟨h.1, rfl, h.2.1 rfl, h.2.2 rfl (by decide)⟩

/-- A concrete configuration with streaming enabled. -/
def cfgStream : AgentCfg := { streamJSON := true }

/-- A concrete configuration with streaming disabled. -/
def cfgNoStream : AgentCfg := { streamJSON := false }

/-- Claim C7 (counterexample): with streaming enabled, AmpProvider's argument
vector ends with the streaming flag, not with the prompt; and with
VC_CLAUDE_ARGS set (non-empty) to a value containing the permission-bypass
flag, ClaudeCodeProvider still includes that flag, so its presence is not
equivalent to the variable being unset. -/
theorem build_command_prompt_last_counterexample :
    (ampBuildArgs cfgStream "fix the bug").getLast? = some "--stream-json"
    ∧ "--stream-json" ≠ "fix the bug"
    ∧ "--dangerously-skip-permissions" ≠ ""
    ∧ (claudeCodeBuildArgs cfgNoStream "--dangerously-skip-permissions" "fix the bug").contains
        "--dangerously-skip-permissions" = true := by
  refine ⟨by decide, by decide, by decide, by decide⟩

/-- Claim C7 (amended): ClaudeCodeProvider's vector always starts with
--print and ends with the prompt, includes --output-format stream-json
followed by the default or environment-supplied flags when streaming is
requested, and includes --dangerously-skip-permissions when VC_CLAUDE_ARGS
is unset (when set, the variable's whitespace-split fields are spliced in
before the prompt and may themselves contain any flag); AmpProvider's vector
is --dangerously-allow-all --execute followed by the prompt, with
--stream-json appended after the prompt when streaming is requested, so its
prompt is the final argument exactly when streaming is off. -/
theorem build_command_shapes (cfg : AgentCfg) (env prompt : String) :
    (claudeCodeBuildArgs cfg env prompt).head? = some "--print"
    ∧ (claudeCodeBuildArgs cfg env prompt).getLast? = some prompt
    ∧ (env = "" → claudeCodeBuildArgs cfg env prompt
        = ["--print"]
          ++ (if cfg.streamJSON then ["--output-format", "stream-json"] else [])
          ++ ["--dangerously-skip-permissions", prompt])
    ∧ (env ≠ "" → claudeCodeBuildArgs cfg env prompt
        = ["--print"]
          ++ (if cfg.streamJSON then ["--output-format", "stream-json"] else [])
          ++ goFields env ++ [prompt])
    ∧ ampBuildArgs cfg prompt
        = ["--dangerously-allow-all", "--execute", prompt]
          ++ (if cfg.streamJSON then ["--stream-json"] else [])
    ∧ (cfg.streamJSON = false → (ampBuildArgs cfg prompt).getLast? = some prompt)
    ∧ (cfg.streamJSON = true → (ampBuildArgs cfg prompt).getLast? = some "--stream-json") := by
  refine ⟨?_, ?_, ?_, ?_, rfl, ?_, ?_⟩
  · unfold claudeCodeBuildArgs
    simp
  · unfold claudeCodeBuildArgs
    exact List.getLast?_concat _
  · intro h
    unfold claudeCodeBuildArgs
    rw [if_pos h]
    simp
  · intro h
    unfold claudeCodeBuildArgs
    rw [if_neg h]
  · intro h
    unfold ampBuildArgs
    rw [h]
    rfl
  · intro h
    unfold ampBuildArgs
    rw [h]
    rfl

theorem build_command_shapes_witness :
    claudeCodeBuildArgs cfgStream "" "p"
      = ["--print", "--output-format", "stream-json", "--dangerously-skip-permissions", "p"]
    ∧ claudeCodeBuildArgs cfgNoStream "--model sonnet --verbose" "p"
      = ["--print", "--model", "sonnet", "--verbose", "p"]
    ∧ ampBuildArgs cfgNoStream "p" = ["--dangerously-allow-all", "--execute", "p"] := by
  refine ⟨?_, ?_, ?_⟩
  · have h := (build_command_shapes cfgStream "" "p").2.2.1 rfl
    rw [h]
    rfl
  · have h := (build_command_shapes cfgNoStream "--model sonnet --verbose" "p").2.2.2.1
      (by decide)
    rw [h]
    rfl
  · have h := (build_command_shapes cfgNoStream "x" "p").2.2.2.2.2.1 rfl
    have he := (build_command_shapes cfgNoStream "x" "p").2.2.2.2.1
    rw [he]
    rfl

end VC
